import Mathlib

/-!
Verification of the field-extraction and normalization logic of
`src/watch_scraper.py` (WatchScraper).

The Python code is shallowly embedded: each relevant method becomes a Lean
function over an explicit data model of the parsed HTML inputs.

Modelling conventions
* A BeautifulSoup listing fragment is abstracted by the results of the fixed
  queries the code performs on it (`ListingFragment` below): each field holds
  the stripped text / attribute value of the queried element, or `none` when
  the element is absent.
* Python `dict` records with optional keys are modelled by a structure of
  `Option` fields; for the price field, which the code can set to `None`
  explicitly, `Option (Option String)` distinguishes "key absent" (`none`)
  from "key present with null value" (`some none`).
* Python regular-expression searches are modelled by explicit left-to-right
  scans.  For every pattern used by the scraper, greedy matching with
  backtracking degenerates to "maximal run, then required literal/digits",
  because the character classes involved are disjoint from what must follow;
  the scan functions below implement exactly that.
* Case-insensitive matching (`re.IGNORECASE`) and Python's `str.upper` /
  `str.lower` / `str.strip` are modelled over the character repertoire the
  scraper's patterns use (ASCII plus the letter pair Ö/ö appearing in
  "A. Lange & Söhne").
-/

/-- Python whitespace class `\s` over the ASCII range. -/
def isPySpace (c : Char) : Bool :=
  c = ' ' || c = '\t' || c = '\n' || c = '\r' || c = Char.ofNat 11 || c = Char.ofNat 12

/-- Python digit class `\d` over the ASCII range. -/
def isPyDigit (c : Char) : Bool :=
  '0' ≤ c && c ≤ '9'

/-- Upper/lower case letter pairs for the characters appearing in the
scraper's patterns: the ASCII alphabet plus Ö/ö from "A. Lange & Söhne". -/
def caseTable : List (Char × Char) :=
  [('A','a'), ('B','b'), ('C','c'), ('D','d'), ('E','e'), ('F','f'), ('G','g'),
   ('H','h'), ('I','i'), ('J','j'), ('K','k'), ('L','l'), ('M','m'), ('N','n'),
   ('O','o'), ('P','p'), ('Q','q'), ('R','r'), ('S','s'), ('T','t'), ('U','u'),
   ('V','v'), ('W','w'), ('X','x'), ('Y','y'), ('Z','z'), ('Ö','ö')]

/-- Lower-casing of one character, as Python's `str.lower` acts on the
characters used by the scraper. -/
def pyLower (c : Char) : Char :=
  match caseTable.lookup c with
  | some l => l
  | none => c

/-- Upper-casing of one character, as Python's `str.upper` acts on the
characters used by the scraper. -/
def pyUpper (c : Char) : Char :=
  match (caseTable.map (fun p => (p.2, p.1))).lookup c with
  | some u => u
  | none => c

/-- Python `str.upper` on a whole string. -/
def pyStrUpper (t : String) : String :=
  String.mk (t.data.map pyUpper)

/-- Python `str.strip`: drop whitespace from both ends. -/
def pyStrip (t : String) : String :=
  String.mk (((t.data.dropWhile isPySpace).reverse.dropWhile isPySpace).reverse)

/-- Case-insensitive character comparison, as `re.IGNORECASE` compares the
characters used by the scraper. -/
def ciEq (a b : Char) : Bool :=
  pyLower a == pyLower b

/-- Case-sensitive literal match at the head of a string: `litAt lit s` is
true when `s` starts with `lit`. -/
def litAt : List Char → List Char → Bool
  | [], _ => true
  | _ :: _, [] => false
  | a :: as, b :: bs => a == b && litAt as bs

/-- Case-insensitive literal match at the head of a string, returning the
remainder after the literal on success. -/
def litCiAt : List Char → List Char → Option (List Char)
  | [], s => some s
  | _ :: _, [] => none
  | a :: as, b :: bs => if ciEq a b then litCiAt as bs else none

/-- Case-insensitive literal match at the head of a string that also returns
the matched input characters (the regex group 0 text, in the input's own
casing, as `re.IGNORECASE` yields it). -/
def ciTakeLit : List Char → List Char → Option (List Char × List Char)
  | [], s => some ([], s)
  | _ :: _, [] => none
  | a :: as, b :: bs =>
    if ciEq a b then (ciTakeLit as bs).map (fun mr => (b :: mr.1, mr.2)) else none

/-- One pattern is a case-insensitive prefix of another. -/
def ciBegins : List Char → List Char → Bool
  | [], _ => true
  | _ :: _, [] => false
  | a :: as, b :: bs => ciEq a b && ciBegins as bs

/-- Left-to-right scan of all start positions of a string, as `re.search`
does, returning the first position where the position matcher succeeds. -/
def findFirstMatch {α : Type} (f : List Char → Option α) : List Char → Option α
  | [] => f []
  | c :: cs =>
    match f (c :: cs) with
    | some a => some a
    | none => findFirstMatch f cs

/-- Python `str.split()` with no argument: split on whitespace runs,
discarding empty pieces. -/
def pySplitAux : List Char → List Char → List (List Char)
  | [], acc => if acc.isEmpty then [] else [acc.reverse]
  | c :: cs, acc =>
    if isPySpace c then
      if acc.isEmpty then pySplitAux cs [] else acc.reverse :: pySplitAux cs []
    else
      pySplitAux cs (c :: acc)

/-- Python `str.split()` on the character list of a string. -/
def pySplit (l : List Char) : List (List Char) :=
  pySplitAux l []

/-- Numeric value of a list of ASCII digits, as Python `int` reads the
digit-only regex groups. -/
def natOfDigits (ds : List Char) : Nat :=
  ds.foldl (fun acc c => acc * 10 + (c.toNat - 48)) 0

/-!  Brand Normalizer (`WatchScraper.extract_main_brand_name`).

All 23 brand patterns in the source are anchored literals (the only regex
metacharacter is the escaped dot in `A\. Lange & Söhne`), so each pattern is
embedded as the literal it matches, in source order. -/

/-- The ordered brand pattern list from `extract_main_brand_name` (each
`^`-anchored regex literal, in source order). -/
def brand_patterns : List String :=
  ["Audemars Piguet", "Patek Philippe", "Vacheron Constantin", "A. Lange & Söhne",
   "Franck Muller", "Bell & Ross", "Tag Heuer", "Jaeger-LeCoultre", "Omega",
   "Rolex", "Tudor", "Cartier", "Hublot", "Breitling", "Panerai", "IWC",
   "Zenith", "Montblanc", "Longines", "Tissot", "Seiko", "Casio", "Citizen"]

/-- First brand pattern matching at the start of the text (case-insensitive),
returning the matched input characters (regex group 0). -/
def firstBrandMatch (t : String) : Option (List Char) :=
  brand_patterns.findSome? (fun p => (ciTakeLit p.data t.data).map Prod.fst)

/-- Embedding of `WatchScraper.extract_main_brand_name`. -/
def extract_main_brand_name (t : String) : String :=
  if t = "" then t
  else
    match firstBrandMatch t with
    | some m => if ' ' ∈ m then String.mk m else pyStrUpper (String.mk m)
    | none =>
      match pySplit t.data with
      | [] => pyStrUpper t
      | w :: _ => pyStrUpper (String.mk w)

example : extract_main_brand_name "Rolex Sky Dweller Oysterflex" = "ROLEX" := by decide
example : extract_main_brand_name "Audemars Piguet Royal Oak" = "Audemars Piguet" := by decide
example : extract_main_brand_name "AUDEMARS PIGUET ROYAL OAK" = "AUDEMARS PIGUET" := by decide
example : extract_main_brand_name "Unknown Maker X1" = "UNKNOWN" := by decide
example : extract_main_brand_name "" = "" := by decide
example : extract_main_brand_name "rolex Datejust" = "ROLEX" := by decide

/-!  Listing Field Extractor (`WatchScraper.extract_product_basic_info`).

A listing fragment is abstracted by the results of the fixed element queries
the method performs on it; each field is the stripped text (or the href
attribute) of the queried element, or `none` when the element is absent. -/

/-- Abstraction of one `li.latest-single-product` listing fragment:
the results of the element queries `extract_product_basic_info` makes.
`linkHref` is the `href` of the `a.woocommerce-LoopProduct-link` anchor
(already defaulted to `""` by `get('href', '')` when the attribute is
missing), the text fields are `get_text(strip=True)` results. -/
structure ListingFragment where
  linkHref : Option String
  h2Text : Option String
  h3Text : Option String
  conditionText : Option String
  priceText : Option String

/-- The scraped product record.  `none` models a key that is absent from the
Python dict; for `price_sgd`, which the code can set to `None` explicitly,
`some none` models the key being present with a null value.  The fields that
the code always initializes (description, year, price_usd, price_idr,
completeness and the metadata fields) use `none` for their null value. -/
structure ProductRecord where
  product_url : Option String := none
  brand : Option String := none
  fullBrandModel : Option String := none
  reference : Option String := none
  condition : Option String := none
  price_sgd : Option (Option String) := none
  description : Option String := none
  year : Option Nat := none
  price_usd : Option String := none
  price_idr : Option String := none
  completeness : Option String := none
  scraped_from : Option String := none
  scraped_at : Option String := none
  product_type : Option String := none
deriving DecidableEq

/-- Position matcher for the price regex `SGD\s*([\d,]+)`: literal `SGD`,
then maximal whitespace, then a non-empty maximal run of digits and commas
(the group).  Backtracking cannot help this pattern: shortening `\s*` leaves
a whitespace character where `[\d,]+` must start. -/
def sgdMatchAt (s : List Char) : Option (List Char) :=
  if litAt ['S', 'G', 'D'] s then
    if (((s.drop 3).dropWhile isPySpace).takeWhile (fun c => isPyDigit c || c = ',')).isEmpty then
      none
    else
      some (((s.drop 3).dropWhile isPySpace).takeWhile (fun c => isPyDigit c || c = ','))
  else none

/-- Embedding of `re.search(r'SGD\s*([\d,]+)', price_text)`, returning the
group 1 text. -/
def sgdSearch (t : String) : Option String :=
  (findFirstMatch sgdMatchAt t.data).map String.mk

/-- Python `price_str.replace(',', '')`. -/
def stripCommas (g : String) : String :=
  String.mk (g.data.filter (fun c => !(c == ',')))

/-- Embedding of `WatchScraper.extract_product_basic_info`. -/
def extract_product_basic_info (f : ListingFragment) : ProductRecord :=
  { product_url := f.linkHref
    brand := f.h2Text.map extract_main_brand_name
    fullBrandModel := f.h2Text
    reference := f.h3Text
    condition := f.conditionText
    price_sgd := f.priceText.map (fun t => (sgdSearch t).map stripCommas)
    description := none
    year := none
    price_usd := none
    price_idr := none
    completeness := none }

example : sgdSearch "SGD 12,500" = some "12,500" := by decide
example : stripCommas "12,500" = "12500" := by decide
example : sgdSearch "USD 8,000" = none := by decide
example : sgdSearch "From SGD 8,800 only" = some "8,800" := by decide

/-!  Detail Field Extractor (`WatchScraper.extract_product_detailed_info`).

A detail document is abstracted by: the `content` attribute of the
`meta[name=description]` tag, the stripped texts of the seven description
selectors in source order, the parsed JSON-LD blocks, and the full rendered
page text. -/

/-- One parsed JSON-LD dict: the `str()` renderings of its `releaseDate` and
`description` values, when those keys are present. -/
structure LdDict where
  releaseDate : Option String
  description : Option String

/-- Abstraction of a fetched and parsed detail page.  `metaDescContent` is
`meta_desc.get('content')` (absent tag or absent attribute give `none`);
`selTexts` holds, for each description selector in source order, the
`get_text(strip=True)` of the first matching element; `ldBlocks` holds one
entry per `script[type=application/ld+json]` tag, `none` when the script is
empty, fails to parse, or does not parse to a dict; `pageText` is
`soup.get_text()`. -/
structure DetailDoc where
  metaDescContent : Option String
  selTexts : List (Option String)
  ldBlocks : List (Option LdDict)
  pageText : String

/-- First description selector hit: the first selector text whose length
exceeds 20 characters, in selector order. -/
def firstSel (l : List (Option String)) : Option String :=
  l.findSome? (fun o => o.bind (fun t => if 20 < t.length then some t else none))

/-- Value of `detailed_info['description']` right after the meta-tag step:
the stripped content when the raw content is truthy (non-empty), `none` (the
initial null) otherwise. -/
def metaValOf (doc : DetailDoc) : Option String :=
  doc.metaDescContent.bind (fun c => if c = "" then none else some (pyStrip c))

/-- Description extraction of `extract_product_detailed_info`: the meta
description (stripped) when its content is truthy, with fallback to the
selector chain when the resulting value is falsy (None or empty). -/
def descOf (doc : DetailDoc) : Option String :=
  match metaValOf doc with
  | some s =>
    if s = "" then
      match firstSel doc.selTexts with
      | some t => some t
      | none => some s
    else some s
  | none => firstSel doc.selTexts

/-- Position matcher for `(\d{4})`: four consecutive digits, also returning
the remainder of the string. -/
def fourDigitsAt (s : List Char) : Option (Nat × List Char) :=
  match s with
  | a :: b :: c :: d :: rest =>
    if isPyDigit a && isPyDigit b && isPyDigit c && isPyDigit d then
      some (natOfDigits [a, b, c, d], rest)
    else none
  | _ => none

/-- Embedding of `re.search(r'(\d{4})', s)`: value of the first four-digit
run. -/
def find4 (t : String) : Option Nat :=
  findFirstMatch (fun s => (fourDigitsAt s).map Prod.fst) t.data

/-- The `[:\s]` character class of the year patterns. -/
def isColonSpace (c : Char) : Bool :=
  c == ':' || isPySpace c

/-- Position matcher for `Year[:\s]*(\d{4})` (IGNORECASE). -/
def yearPat1At (s : List Char) : Option Nat :=
  match litCiAt "Year".data s with
  | some rest => (fourDigitsAt (rest.dropWhile isColonSpace)).map Prod.fst
  | none => none

/-- Position matcher for `(\d{4})\s*model` (IGNORECASE). -/
def yearPat2At (s : List Char) : Option Nat :=
  match fourDigitsAt s with
  | some (y, rest) =>
    match litCiAt "model".data (rest.dropWhile isPySpace) with
    | some _ => some y
    | none => none
  | none => none

/-- Position matcher for `circa\s*(\d{4})` (IGNORECASE). -/
def yearPat3At (s : List Char) : Option Nat :=
  match litCiAt "circa".data s with
  | some rest => (fourDigitsAt (rest.dropWhile isPySpace)).map Prod.fst
  | none => none

/-- Position matcher for `manufactured\s*in\s*(\d{4})` (IGNORECASE). -/
def yearPat4At (s : List Char) : Option Nat :=
  match litCiAt "manufactured".data s with
  | some r1 =>
    match litCiAt "in".data (r1.dropWhile isPySpace) with
    | some r2 => (fourDigitsAt (r2.dropWhile isPySpace)).map Prod.fst
    | none => none
  | none => none

/-- Position matcher for `production\s*year[:\s]*(\d{4})` (IGNORECASE). -/
def yearPat5At (s : List Char) : Option Nat :=
  match litCiAt "production".data s with
  | some r1 =>
    match litCiAt "year".data (r1.dropWhile isPySpace) with
    | some r2 => (fourDigitsAt (r2.dropWhile isColonSpace)).map Prod.fst
    | none => none
  | none => none

/-- The ordered year pattern list of `extract_product_detailed_info`. -/
def yearMatchers : List (List Char → Option Nat) :=
  [yearPat1At, yearPat2At, yearPat3At, yearPat4At, yearPat5At]

/-- Embedding of the page-text year scan: for each pattern in order, take its
leftmost match; accept it when it lies in [1950, 2025], otherwise move to the
next pattern. -/
def scanYearPatterns (t : String) : Option Nat :=
  yearMatchers.findSome? (fun m =>
    match findFirstMatch m t.data with
    | some y => if 1950 ≤ y ∧ y ≤ 2025 then some y else none
    | none => none)

/-- The description branch of the JSON-LD year check: first four-digit run of
`str(data['description'])`, accepted only in [1950, 2025]. -/
def blockTryDesc (d : LdDict) : Option Nat :=
  match d.description with
  | some ds =>
    match find4 ds with
    | some y => if 1950 ≤ y ∧ y ≤ 2025 then some y else none
    | none => none
  | none => none

/-- Year candidate of one JSON-LD dict: `releaseDate` first (first four-digit
run, accepted only in [1950, 2025]); when that key is absent or its run is
missing or out of range, fall through to the `description` key. -/
def blockYear (d : LdDict) : Option Nat :=
  match d.releaseDate with
  | some rd =>
    match find4 rd with
    | some y => if 1950 ≤ y ∧ y ≤ 2025 then some y else blockTryDesc d
    | none => blockTryDesc d
  | none => blockTryDesc d

/-- Embedding of the structured-data year loop: first block yielding a valid
year wins (the `break`), unparsable blocks are skipped. -/
def structuredYear (blocks : List (Option LdDict)) : Option Nat :=
  blocks.findSome? (fun ob =>
    match ob with
    | some d => blockYear d
    | none => none)

/-- Year extraction of `extract_product_detailed_info`: structured data
first, then the page-text scan. -/
def yearOf (doc : DetailDoc) : Option Nat :=
  match structuredYear doc.ldBlocks with
  | some y => some y
  | none => scanYearPatterns doc.pageText

/-- The result dict of `extract_product_detailed_info`: always exactly the
two keys `description` and `year`. -/
structure DetailInfo where
  description : Option String := none
  year : Option Nat := none
deriving DecidableEq

/-- Embedding of `WatchScraper.extract_product_detailed_info`.  The `none`
argument covers both early exits of the method: an empty/absent product URL
and a failed page fetch (`get_page` returning its `None` sentinel). -/
def extract_product_detailed_info : Option DetailDoc → DetailInfo
  | none => { description := none, year := none }
  | some doc => { description := descOf doc, year := yearOf doc }

example : scanYearPatterns "This fine chronograph, circa 1998, remains unpolished" = some 1998 := by decide
example : scanYearPatterns "CIRCA 1998" = some 1998 := by decide
example : scanYearPatterns "circa 3012" = none := by decide
example : scanYearPatterns "Year: 1995 model" = some 1995 := by decide
example : find4 "around 30125" = some 3012 := by decide

/-!  Page Orchestrator (`WatchScraper.scrape_page`, `WatchScraper.get_total_pages`). -/

/-- Embedding of `product_data.update(detailed_info)`: the detail dict always
holds exactly the keys `description` and `year`, so the update overwrites
exactly those two fields. -/
def mergeDetail (r : ProductRecord) (d : DetailInfo) : ProductRecord :=
  { r with description := d.description, year := d.year }

/-- Embedding of the metadata update in `scrape_page`: source identifier,
extraction timestamp and record type. -/
def addMeta (r : ProductRecord) (now : String) : ProductRecord :=
  { r with
    scraped_from := some "watchexchange.sg"
    scraped_at := some now
    product_type := some "watches" }

/-- Embedding of the per-fragment body of `WatchScraper.scrape_page`.
`fetchDetail` abstracts fetching and parsing a product URL (`none` is the
`get_page` failure sentinel); `now` stands for `datetime.now().isoformat()`.
The detail fetch is guarded by the truthiness of
`product_data.get('product_url')`: key present and non-empty. -/
def scrapeOne (includeDetails : Bool) (fetchDetail : String → Option DetailDoc)
    (now : String) (f : ListingFragment) : ProductRecord :=
  let r := extract_product_basic_info f
  let r2 :=
    match r.product_url with
    | some u =>
      if includeDetails = true ∧ u ≠ "" then
        mergeDetail r (extract_product_detailed_info (fetchDetail u))
      else r
    | none => r
  addMeta r2 now

/-- Embedding of `WatchScraper.scrape_page`: one record per listing fragment,
in document order. -/
def scrapePage (frags : List ListingFragment) (includeDetails : Bool)
    (fetchDetail : String → Option DetailDoc) (now : String) : List ProductRecord :=
  frags.map (scrapeOne includeDetails fetchDetail now)

/-- Position matcher for `/page/(\d+)/`: the literal `/page/`, then a maximal
non-empty digit run (the group), then `/`.  Backtracking cannot help `\d+`
here: shortening the run leaves a digit where `/` must stand. -/
def pageNumAt (s : List Char) : Option Nat :=
  if litAt "/page/".data s then
    let rest := s.drop 6
    let ds := rest.takeWhile isPyDigit
    if ds.isEmpty then none
    else
      match rest.dropWhile isPyDigit with
      | '/' :: _ => some (natOfDigits ds)
      | _ => none
  else none

/-- Embedding of `re.search(r'/page/(\d+)/', href)` returning the group 1
value. -/
def pagesFromHref (h : String) : Option Nat :=
  findFirstMatch pageNumAt h.data

/-- Position matcher for `(\d+)\s*Pre-owned watches`: a maximal non-empty
digit run (the group), maximal whitespace, then the literal (this search is
case-sensitive in the source). -/
def countAt (s : List Char) : Option Nat :=
  let ds := s.takeWhile isPyDigit
  if ds.isEmpty then none
  else if litAt "Pre-owned watches".data ((s.dropWhile isPyDigit).dropWhile isPySpace) then
    some (natOfDigits ds)
  else none

/-- Embedding of `re.search(r'(\d+)\s*Pre-owned watches', count_text)`
returning the group 1 value. -/
def countSearch (t : String) : Option Nat :=
  findFirstMatch countAt t.data

/-- Abstraction of the listing root document as `get_total_pages` queries it:
the `href` of the `a.lmp_button` load-more button (`none` when the button is
absent; `get('href', '')` already defaults a missing attribute to `""`), and
the text of the `h1.woocommerce-result-count` element. -/
structure RootDoc where
  lmpHref : Option String
  resultCountText : Option String

/-- Embedding of `WatchScraper.get_total_pages`.  The argument is the result
of fetching the listing root (`none` is the `get_page` failure sentinel). -/
def get_total_pages (fetched : Option RootDoc) : Nat :=
  match fetched with
  | none => 1
  | some doc =>
    let fromCount : Nat :=
      match doc.resultCountText with
      | some t =>
        match countSearch t with
        | some m => (m + 19) / 20
        | none => 27
      | none => 27
    match doc.lmpHref with
    | some h =>
      match pagesFromHref h with
      | some n => n
      | none => fromCount
    | none => fromCount

example : pagesFromHref "https://watchexchange.sg/watches/page/27/" = some 27 := by decide
example : pagesFromHref "" = none := by decide
example : countSearch "537 Pre-owned watches" = some 537 := by decide
example : countSearch "537 watches" = none := by decide
example : get_total_pages none = 1 := by decide
example : get_total_pages (some { lmpHref := none, resultCountText := none }) = 27 := by decide
example : get_total_pages (some { lmpHref := none, resultCountText := some "45 Pre-owned watches" }) = 3 := by decide

/-!  General lemmas about the scan combinators. -/

/-- A successful scan comes from a successful position match on some suffix. -/
theorem findFirstMatch_exists {α : Type} (f : List Char → Option α) :
    ∀ (l : List Char) (a : α), findFirstMatch f l = some a → ∃ s, f s = some a := by
  intro l
  induction l with
  | nil => intro a h; exact ⟨[], h⟩
  | cons c cs ih =>
    intro a h
    unfold findFirstMatch at h
    cases hf : f (c :: cs) with
    | some b => rw [hf] at h; exact ⟨c :: cs, hf.trans h⟩
    | none => rw [hf] at h; exact ih a h

/-- Whatever the range-guarded year scan returns lies in [1950, 2025]. -/
theorem scanYearPatterns_range (t : String) (y : Nat)
    (h : scanYearPatterns t = some y) : 1950 ≤ y ∧ y ≤ 2025 := by
  unfold scanYearPatterns at h
  rcases List.exists_of_findSome?_eq_some h with ⟨m, -, hm⟩
  split at hm
  · split at hm
    · rename_i hr
      injection hm with hm
      exact hm ▸ hr
    · exact absurd hm (by simp)
  · exact absurd hm (by simp)

/-- The description branch of a JSON-LD block only yields years in range. -/
theorem blockTryDesc_range (d : LdDict) (y : Nat)
    (h : blockTryDesc d = some y) : 1950 ≤ y ∧ y ≤ 2025 := by
  unfold blockTryDesc at h
  split at h
  · split at h
    · split at h
      · rename_i hr
        injection h with h
        exact h ▸ hr
      · exact absurd h (by simp)
    · exact absurd h (by simp)
  · exact absurd h (by simp)

/-- A JSON-LD block only yields years in range. -/
theorem blockYear_range (d : LdDict) (y : Nat)
    (h : blockYear d = some y) : 1950 ≤ y ∧ y ≤ 2025 := by
  unfold blockYear at h
  split at h
  · split at h
    · split at h
      · rename_i hr
        injection h with h
        exact h ▸ hr
      · exact blockTryDesc_range d y h
    · exact blockTryDesc_range d y h
  · exact blockTryDesc_range d y h

/-- The structured-data layer only yields years in range. -/
theorem structuredYear_range (blocks : List (Option LdDict)) (y : Nat)
    (h : structuredYear blocks = some y) : 1950 ≤ y ∧ y ≤ 2025 := by
  unfold structuredYear at h
  rcases List.exists_of_findSome?_eq_some h with ⟨ob, -, hob⟩
  cases ob with
  | none => exact absurd hob (by simp)
  | some d => exact blockYear_range d y hob

/-- C4: every year `extract_product_detailed_info` yields lies in the range
[1950, 2025]; in particular a four-digit run outside the range (such as 3012)
is never accepted from either the structured-data layer or the page text. -/
theorem claim_C4 : ∀ (od : Option DetailDoc) (y : Nat),
    (extract_product_detailed_info od).year = some y → 1950 ≤ y ∧ y ≤ 2025 := by
  intro od y h
  cases od with
  | none => exact absurd h (by simp [extract_product_detailed_info])
  | some doc =>
    have h2 : yearOf doc = some y := h
    unfold yearOf at h2
    cases hs : structuredYear doc.ldBlocks with
    | some y' =>
      rw [hs] at h2; injection h2 with h2
      exact h2 ▸ structuredYear_range doc.ldBlocks y' hs
    | none => rw [hs] at h2; exact scanYearPatterns_range doc.pageText y h2

/-- Detail document used as the concrete instance for the year claims. -/
def circaDoc : DetailDoc :=
  { metaDescContent := none
    selTexts := []
    ldBlocks := []
    pageText := "This fine chronograph, circa 1998, remains unpolished" }

/-- Witness for C4: the year 1998 extracted from `circaDoc` is in range. -/
theorem claim_C4_witness : 1950 ≤ 1998 ∧ 1998 ≤ 2025 :=
  claim_C4 (some circaDoc) 1998 (by decide)

/-- Detail document used as the concrete instance for C5. -/
def circaDoc2 : DetailDoc :=
  { metaDescContent := none
    selTexts := []
    ldBlocks := [none]
    pageText := "Omega Speedmaster, CIRCA 1998, full set" }

/-- C5: when the structured-data layer produced no year, the year is the
result of the ordered, case-insensitive page-text pattern scan, and a page
text containing "circa 1998" (in any casing) yields the year 1998. -/
theorem claim_C5 :
    (∀ doc : DetailDoc, structuredYear doc.ldBlocks = none →
      (extract_product_detailed_info (some doc)).year = scanYearPatterns doc.pageText)
    ∧ scanYearPatterns "This fine chronograph, circa 1998, remains unpolished" = some 1998
    ∧ scanYearPatterns "Omega Speedmaster, CIRCA 1998, full set" = some 1998 := by
  refine ⟨?_, by decide, by decide⟩
  intro doc h
  show yearOf doc = scanYearPatterns doc.pageText
  unfold yearOf
  rw [h]

/-- Witness for C5 at `circaDoc2`: no structured year, page text containing
"CIRCA 1998", extracted year 1998. -/
theorem claim_C5_witness :
    (extract_product_detailed_info (some circaDoc2)).year = some 1998 := by
  rw [claim_C5.1 circaDoc2 rfl]
  exact claim_C5.2.2

/-- C7: merging the detail-extractor result into a record rewrites only the
description and year placeholders; every listing-sourced field and every
other field is unchanged. -/
theorem claim_C7 : ∀ (r : ProductRecord) (d : DetailInfo),
    (mergeDetail r d).product_url = r.product_url
    ∧ (mergeDetail r d).brand = r.brand
    ∧ (mergeDetail r d).fullBrandModel = r.fullBrandModel
    ∧ (mergeDetail r d).reference = r.reference
    ∧ (mergeDetail r d).condition = r.condition
    ∧ (mergeDetail r d).price_sgd = r.price_sgd
    ∧ (mergeDetail r d).price_usd = r.price_usd
    ∧ (mergeDetail r d).price_idr = r.price_idr
    ∧ (mergeDetail r d).completeness = r.completeness
    ∧ (mergeDetail r d).scraped_from = r.scraped_from
    ∧ (mergeDetail r d).scraped_at = r.scraped_at
    ∧ (mergeDetail r d).product_type = r.product_type
    ∧ (mergeDetail r d).description = d.description
    ∧ (mergeDetail r d).year = d.year :=
  fun _ _ => ⟨rfl, rfl, rfl, rfl, rfl, rfl, rfl, rfl, rfl, rfl, rfl, rfl, rfl, rfl⟩

/-- C10: when fetching the listing root fails entirely, `get_total_pages`
returns 1, not the hard-coded fallback of 27. -/
theorem claim_C10 : get_total_pages none = 1 ∧ get_total_pages none ≠ 27 := by
  decide

/-- C8: total-page discovery is layered: the pagination link's page number
wins when present; otherwise a found result count gives its ceiling division
by the page size 20; otherwise the hard-coded fallback 27 is returned. -/
theorem claim_C8 : ∀ doc : RootDoc,
    (∀ h n, doc.lmpHref = some h → pagesFromHref h = some n →
      get_total_pages (some doc) = n)
    ∧ (∀ m t, (∀ h, doc.lmpHref = some h → pagesFromHref h = none) →
        doc.resultCountText = some t → countSearch t = some m →
        get_total_pages (some doc) = (m + 19) / 20)
    ∧ ((∀ h, doc.lmpHref = some h → pagesFromHref h = none) →
        (∀ t, doc.resultCountText = some t → countSearch t = none) →
        get_total_pages (some doc) = 27) := by
  intro doc
  refine ⟨?_, ?_, ?_⟩
  · intro h n hh hp
    simp [get_total_pages, hh, hp]
  · intro m t hno ht hc
    cases hl : doc.lmpHref with
    | none => simp [get_total_pages, hl, ht, hc]
    | some h => simp [get_total_pages, hl, ht, hc, hno h hl]
  · intro hno hct
    cases hl : doc.lmpHref with
    | none =>
      cases hr : doc.resultCountText with
      | none => simp [get_total_pages, hl, hr]
      | some t => simp [get_total_pages, hl, hr, hct t hr]
    | some h =>
      cases hr : doc.resultCountText with
      | none => simp [get_total_pages, hl, hr, hno h hl]
      | some t => simp [get_total_pages, hl, hr, hno h hl, hct t hr]

/-- Root document whose load-more link carries a last-page number. -/
def rootDocHref : RootDoc :=
  { lmpHref := some "https://watchexchange.sg/watches/page/14/", resultCountText := none }

/-- Root document with only a result count. -/
def rootDocCount : RootDoc :=
  { lmpHref := none, resultCountText := some "45 Pre-owned watches" }

/-- Root document where both page-count indicators fail. -/
def rootDocBare : RootDoc :=
  { lmpHref := some "https://watchexchange.sg/watches/", resultCountText := some "Lots of watches" }

/-- Witness for C8: the three layers on concrete root documents — link page
number 14; count 45 giving ceiling(45/20) = 3 pages; fallback 27. -/
theorem claim_C8_witness :
    get_total_pages (some rootDocHref) = 14
    ∧ get_total_pages (some rootDocCount) = 3
    ∧ get_total_pages (some rootDocBare) = 27 := by
  refine ⟨?_, ?_, ?_⟩
  · exact (claim_C8 rootDocHref).1 _ 14 rfl (by decide)
  · exact (claim_C8 rootDocCount).2.1 45 _ (fun h hh => nomatch hh) rfl (by decide)
  · refine (claim_C8 rootDocBare).2.2 ?_ ?_
    · intro h hh
      injection hh with hh
      rw [← hh]
      decide
    · intro t ht
      injection ht with ht
      rw [← ht]
      decide

/-- The group of a successful price-pattern position match consists of digits
and commas only. -/
theorem sgdMatchAt_chars (s g : List Char) (h : sgdMatchAt s = some g) :
    ∀ c ∈ g, (isPyDigit c || c = ',') = true := by
  unfold sgdMatchAt at h
  split at h
  · split at h
    · exact absurd h (by simp)
    · injection h with h
      intro c hc
      rw [← h] at hc
      exact List.mem_takeWhile_imp (p := fun c => isPyDigit c || decide (c = ',')) hc
  · exact absurd h (by simp)

/-- C3: with price text present, the price field is the currency-tagged group
with thousands separators stripped (a digit-only string), and when no
currency-tagged substring is found the field is present with a null value,
not omitted. -/
theorem claim_C3 : ∀ (f : ListingFragment) (t : String), f.priceText = some t →
    ((extract_product_basic_info f).price_sgd = some ((sgdSearch t).map stripCommas))
    ∧ (∀ g, sgdSearch t = some g → (stripCommas g).data.all isPyDigit = true)
    ∧ (sgdSearch t = none → (extract_product_basic_info f).price_sgd = some none) := by
  intro f t ht
  refine ⟨by simp [extract_product_basic_info, ht], ?_, ?_⟩
  · intro g hg
    unfold sgdSearch at hg
    rcases Option.map_eq_some'.mp hg with ⟨gl, hgl, hmk⟩
    rcases findFirstMatch_exists sgdMatchAt t.data gl hgl with ⟨s, hs⟩
    have hchars := sgdMatchAt_chars s gl hs
    subst hmk
    apply List.all_eq_true.mpr
    intro c hc
    have hmem : c ∈ gl.filter (fun c => !(c == ',')) := hc
    rcases List.mem_filter.mp hmem with ⟨hin, hnc⟩
    rcases (Bool.or_eq_true _ _).mp (hchars c hin) with hd | hcomma
    · exact hd
    · exfalso
      have : c = ',' := of_decide_eq_true hcomma
      rw [this] at hnc
      simp at hnc
  · intro hn
    simp [extract_product_basic_info, ht, hn]

/-- Listing fragment carrying the price text of the spec's concrete
scenario. -/
def priceFrag : ListingFragment :=
  { linkHref := none, h2Text := none, h3Text := none, conditionText := none
    priceText := some "SGD 12,500" }

/-- Witness for C3 at `priceFrag`: "SGD 12,500" parses to the price value
"12500". -/
theorem claim_C3_witness :
    (extract_product_basic_info priceFrag).price_sgd = some (some "12500") :=
  ((claim_C3 priceFrag "SGD 12,500" rfl).1).trans (by decide)

/-- C6 (amended): description fallback layering.  The meta description is
used verbatim (trimmed) when its content trims to something non-empty;
otherwise the ordered selectors are tried and the first text longer than 20
characters is accepted; otherwise the description is absent — except that a
present, whitespace-only meta content leaves the empty string behind. -/
theorem claim_C6 : ∀ doc : DetailDoc,
    (∀ c, doc.metaDescContent = some c → pyStrip c ≠ "" →
      (extract_product_detailed_info (some doc)).description = some (pyStrip c))
    ∧ (∀ t, (∀ c, doc.metaDescContent = some c → pyStrip c = "") →
        firstSel doc.selTexts = some t →
        (extract_product_detailed_info (some doc)).description = some t)
    ∧ (doc.metaDescContent = none → firstSel doc.selTexts = none →
        (extract_product_detailed_info (some doc)).description = none)
    ∧ (∀ c, doc.metaDescContent = some c → c ≠ "" → pyStrip c = "" →
        firstSel doc.selTexts = none →
        (extract_product_detailed_info (some doc)).description = some "")
    ∧ (doc.metaDescContent = some "" → firstSel doc.selTexts = none →
        (extract_product_detailed_info (some doc)).description = none) := by
  intro doc
  refine ⟨?_, ?_, ?_, ?_, ?_⟩
  · intro c hc hs
    have hcne : c ≠ "" := by
      intro he
      rw [he] at hs
      exact hs (by decide)
    have hm : metaValOf doc = some (pyStrip c) := by
      unfold metaValOf
      rw [hc]
      simp [hcne]
    show descOf doc = some (pyStrip c)
    simp [descOf, hm, hs]
  · intro t hAll hsel
    show descOf doc = some t
    cases hc : doc.metaDescContent with
    | none =>
      have hm : metaValOf doc = none := by unfold metaValOf; rw [hc]; rfl
      simp [descOf, hm, hsel]
    | some c =>
      by_cases hce : c = ""
      · have hm : metaValOf doc = none := by unfold metaValOf; rw [hc]; simp [hce]
        simp [descOf, hm, hsel]
      · have hm : metaValOf doc = some "" := by
          unfold metaValOf
          rw [hc]
          simp [hce, hAll c hc]
        simp [descOf, hm, hsel]
  · intro hc hsel
    have hm : metaValOf doc = none := by unfold metaValOf; rw [hc]; rfl
    show descOf doc = none
    simp [descOf, hm, hsel]
  · intro c hc hce hps hsel
    have hm : metaValOf doc = some "" := by
      unfold metaValOf
      rw [hc]
      simp [hce, hps]
    show descOf doc = some ""
    simp [descOf, hm, hsel]
  · intro hc hsel
    have hm : metaValOf doc = none := by unfold metaValOf; rw [hc]; simp
    show descOf doc = none
    simp [descOf, hm, hsel]

/-- Detail document whose whitespace-only meta description is displaced by a
long selector text: the counterexample input for C6. -/
def wsMetaDoc : DetailDoc :=
  { metaDescContent := some "   "
    selTexts := [some "A wonderful vintage chronograph piece"]
    ldBlocks := []
    pageText := "" }

/-- Counterexample to C6 as stated: the meta description of `wsMetaDoc` is
present and non-empty, yet the extracted description is the selector text,
not the trimmed meta content. -/
theorem claim_C6_counterexample :
    wsMetaDoc.metaDescContent = some "   "
    ∧ ("   " : String) ≠ ""
    ∧ (extract_product_detailed_info (some wsMetaDoc)).description
        = some "A wonderful vintage chronograph piece"
    ∧ (extract_product_detailed_info (some wsMetaDoc)).description
        ≠ some (pyStrip "   ") := by
  refine ⟨rfl, by decide, by decide, by decide⟩

/-- Detail document with a meaningful meta description. -/
def metaDoc : DetailDoc :=
  { metaDescContent := some " A lovely Omega Speedmaster watch "
    selTexts := [some "short"]
    ldBlocks := []
    pageText := "" }

/-- Witness for C6 at `metaDoc`: the meta description is used, trimmed. -/
theorem claim_C6_witness :
    (extract_product_detailed_info (some metaDoc)).description
      = some "A lovely Omega Speedmaster watch" := by
  have h := (claim_C6 metaDoc).1 " A lovely Omega Speedmaster watch " rfl (by decide)
  exact h.trans (by decide)

/-- C9: the brand normalizer is total — an empty input is returned unchanged,
and a non-empty input matching no brand pattern yields its first
whitespace-delimited token upper-cased. -/
theorem claim_C9 :
    extract_main_brand_name "" = ""
    ∧ (∀ (t : String) (w : List Char) (ws : List (List Char)), t ≠ "" →
        firstBrandMatch t = none → pySplit t.data = w :: ws →
        extract_main_brand_name t = pyStrUpper (String.mk w)) := by
  refine ⟨by decide, ?_⟩
  intro t w ws ht hfb hsplit
  simp [extract_main_brand_name, ht, hfb, hsplit]

/-- Witness for C9: "Unknown Maker X1" matches no brand pattern and yields
its first token upper-cased, "UNKNOWN". -/
theorem claim_C9_witness : extract_main_brand_name "Unknown Maker X1" = "UNKNOWN" := by
  have h := claim_C9.2 "Unknown Maker X1" ['U', 'n', 'k', 'n', 'o', 'w', 'n']
    [['M', 'a', 'k', 'e', 'r'], ['X', '1']] (by decide) (by decide) (by decide)
  exact h.trans (by decide)

/-- The brand of a scraped record is the normalized h2 text of its fragment:
neither the detail merge nor the metadata update touches it. -/
theorem scrapeOne_brand (incl : Bool) (fd : String → Option DetailDoc)
    (now : String) (f : ListingFragment) :
    (scrapeOne incl fd now f).brand = f.h2Text.map extract_main_brand_name := by
  simp only [scrapeOne, extract_product_basic_info]
  cases hl : f.linkHref with
  | none => rfl
  | some u => split <;> ((try split) <;> rfl)

/-- C1 (amended): when every listing fragment on the page carries an h2
heading, every record produced by the page scrape has a brand value (derived
by the normalizer, which falls back to the upper-cased first token when no
brand pattern matches). -/
theorem claim_C1 : ∀ (frags : List ListingFragment) (incl : Bool)
    (fd : String → Option DetailDoc) (now : String) (r : ProductRecord),
    r ∈ scrapePage frags incl fd now → (∀ f ∈ frags, f.h2Text ≠ none) →
    ∃ b, r.brand = some b := by
  intro frags incl fd now r hr hall
  rcases List.mem_map.mp hr with ⟨f, hf, rfl⟩
  rw [scrapeOne_brand]
  cases hh : f.h2Text with
  | none => exact absurd hh (hall f hf)
  | some tx => exact ⟨extract_main_brand_name tx, rfl⟩

/-- Listing fragment with no h2 heading at all. -/
def bareFrag : ListingFragment :=
  { linkHref := none, h2Text := none, h3Text := none, conditionText := none
    priceText := none }

/-- Counterexample to C1 as stated: a page scrape over a fragment without an
h2 heading produces a record with no brand field at all. -/
theorem claim_C1_counterexample :
    (scrapePage [bareFrag] true (fun _ => none) "2026-10-12T00:00:00").map
      (fun r => r.brand) = [none] := by
  decide

/-- Listing fragment whose h2 text matches no brand pattern. -/
def h2Frag : ListingFragment :=
  { linkHref := none, h2Text := some "Unknown Maker X1", h3Text := none
    conditionText := none, priceText := none }

/-- Witness for C1 at `h2Frag`: the scraped record has a brand value even
though no brand pattern matches. -/
theorem claim_C1_witness :
    ∃ b, (scrapeOne false (fun _ => none) "2026-10-12T00:00:00" h2Frag).brand = some b := by
  apply claim_C1 [h2Frag] false (fun _ => none) "2026-10-12T00:00:00"
  · exact List.mem_singleton.mpr rfl
  · intro f hf
    rw [List.mem_singleton] at hf
    subst hf
    decide

/-!  Lemmas for the Brand Normalizer claim.  The key facts: a successful
case-insensitive prefix match fixes the matched characters to a prefix of the
input of the pattern's length; no two distinct brand patterns can match the
same text, because none is a case-insensitive prefix of another. -/

/-- A successful association-list lookup comes from a member pair. -/
theorem lookup_mem : ∀ (l : List (Char × Char)) (a b : Char),
    l.lookup a = some b → (a, b) ∈ l := by
  intro l
  induction l with
  | nil => intro a b h; exact absurd h (by simp)
  | cons p es ih =>
    intro a b h
    obtain ⟨k, v⟩ := p
    unfold List.lookup at h
    split at h
    · rename_i hk
      injection h with h
      subst h
      have : a = k := beq_iff_eq.mp hk
      subst this
      exact List.mem_cons_self _ _
    · exact List.mem_cons_of_mem _ (ih a b h)

/-- Only the space character lower-cases to a space. -/
theorem pyLower_eq_space (c : Char) (h : pyLower c = ' ') : c = ' ' := by
  unfold pyLower at h
  split at h
  · rename_i l hl
    subst h
    have hmem := lookup_mem caseTable c ' ' hl
    have hall : ∀ p ∈ caseTable, p.2 ≠ ' ' := by decide
    exact absurd rfl (hall (c, ' ') hmem)
  · exact h

/-- Only the space character is case-insensitively equal to a space. -/
theorem ciEq_space (b : Char) (h : ciEq ' ' b = true) : b = ' ' := by
  unfold ciEq at h
  have h2 : pyLower ' ' = pyLower b := beq_iff_eq.mp h
  have h3 : pyLower b = ' ' := h2.symm.trans (by decide)
  exact pyLower_eq_space b h3

/-- Two characters case-insensitively equal to a third are case-insensitively
equal to each other. -/
theorem ciEq_both (a b c : Char) (h1 : ciEq a c = true) (h2 : ciEq b c = true) :
    ciEq a b = true := by
  unfold ciEq at *
  exact beq_iff_eq.mpr ((beq_iff_eq.mp h1).trans (beq_iff_eq.mp h2).symm)

/-- A successful case-insensitive prefix match splits the input and fixes the
group length to the pattern length. -/
theorem ciTakeLit_shape : ∀ (p s m r : List Char),
    ciTakeLit p s = some (m, r) → s = m ++ r ∧ m.length = p.length := by
  intro p
  induction p with
  | nil =>
    intro s m r h
    unfold ciTakeLit at h
    injection h with h
    rw [Prod.mk.injEq] at h
    obtain ⟨h1, h2⟩ := h
    subst h1
    subst h2
    exact ⟨rfl, rfl⟩
  | cons a as ih =>
    intro s m r h
    cases s with
    | nil => exact absurd h (by simp [ciTakeLit])
    | cons b bs =>
      unfold ciTakeLit at h
      split at h
      · rcases Option.map_eq_some'.mp h with ⟨⟨m1, r1⟩, hrec, heq⟩
        simp only [Prod.mk.injEq] at heq
        obtain ⟨hm, hr⟩ := heq
        subst hm
        subst hr
        obtain ⟨hs, hl⟩ := ih bs m1 r1 hrec
        subst hs
        exact ⟨rfl, by simp [hl]⟩
      · exact absurd h (by simp)

/-- The matched group of a pattern containing a space itself contains a
space (case-insensitive matching maps a space only to a space). -/
theorem ciTakeLit_space : ∀ (p s m r : List Char),
    ciTakeLit p s = some (m, r) → ' ' ∈ p → ' ' ∈ m := by
  intro p
  induction p with
  | nil => intro s m r h hsp; exact absurd hsp (by simp)
  | cons a as ih =>
    intro s m r h hsp
    cases s with
    | nil => exact absurd h (by simp [ciTakeLit])
    | cons b bs =>
      unfold ciTakeLit at h
      split at h
      · rename_i hci
        rcases Option.map_eq_some'.mp h with ⟨⟨m1, r1⟩, hrec, heq⟩
        simp only [Prod.mk.injEq] at heq
        obtain ⟨hm, hr⟩ := heq
        subst hm
        rcases List.mem_cons.mp hsp with hsp1 | hsp2
        · rw [← hsp1] at hci
          have hb := ciEq_space b hci
          exact List.mem_cons.mpr (Or.inl hb.symm)
        · exact List.mem_cons.mpr (Or.inr (ih bs m1 r1 hrec hsp2))
      · exact absurd h (by simp)

/-- When two patterns both match prefixes of the same text, the shorter is a
case-insensitive prefix of the longer. -/
theorem ciBegins_of_two : ∀ (p q s mp rp mq rq : List Char),
    ciTakeLit p s = some (mp, rp) → ciTakeLit q s = some (mq, rq) →
    p.length ≤ q.length → ciBegins p q = true := by
  intro p
  induction p with
  | nil => intro q s mp rp mq rq h1 h2 hle; rfl
  | cons a as ih =>
    intro q s mp rp mq rq h1 h2 hle
    cases q with
    | nil => simp at hle
    | cons b bs =>
      cases s with
      | nil => exact absurd h1 (by simp [ciTakeLit])
      | cons c cs =>
        unfold ciTakeLit at h1 h2
        split at h1
        · rename_i hac
          split at h2
          · rename_i hbc
            rcases Option.map_eq_some'.mp h1 with ⟨⟨m1, r1⟩, hrec1, -⟩
            rcases Option.map_eq_some'.mp h2 with ⟨⟨m2, r2⟩, hrec2, -⟩
            have he1 : ciEq a b = true := ciEq_both a b c hac hbc
            have hle2 : as.length ≤ bs.length := by
              simp only [List.length_cons] at hle
              omega
            have he2 : ciBegins as bs = true := ih bs cs m1 r1 m2 r2 hrec1 hrec2 hle2
            show (ciEq a b && ciBegins as bs) = true
            rw [he1, he2]
            rfl
          · exact absurd h2 (by simp)
        · exact absurd h1 (by simp)

/-- Boolean check that no brand pattern is a case-insensitive prefix of a
different one (the prefix-collision freedom the source's ordering comment
relies on). -/
def brandPairwiseCheck : Bool :=
  brand_patterns.all (fun p => brand_patterns.all (fun q => p == q || !ciBegins p.data q.data))

/-- The 23 brand patterns are pairwise free of case-insensitive prefix
collisions. -/
theorem brandPairwiseCheck_true : brandPairwiseCheck = true := by decide

/-- When one pattern of the list matches the text and every other fails, the
first-match scan returns the matching pattern's group. -/
theorem firstBrandMatch_unique : ∀ (l : List String) (t b : String) (m r : List Char),
    b ∈ l → ciTakeLit b.data t.data = some (m, r) →
    (∀ p, p ∈ l → p ≠ b → ciTakeLit p.data t.data = none) →
    l.findSome? (fun p => (ciTakeLit p.data t.data).map Prod.fst) = some m := by
  intro l
  induction l with
  | nil => intro t b m r hb; exact absurd hb (by simp)
  | cons a as ih =>
    intro t b m r hb hm hothers
    rw [List.findSome?_cons]
    by_cases hab : a = b
    · subst hab
      simp [hm]
    · have hnone := hothers a (List.mem_cons_self a as) hab
      have hbas : b ∈ as := (List.mem_cons.mp hb).resolve_left (fun he => hab he.symm)
      simp only [hnone, Option.map_none']
      exact ih t b m r hbas hm (fun p hp hne => hothers p (List.mem_cons_of_mem a hp) hne)

/-- C2 (amended): an input beginning case-insensitively with a multi-word
brand pattern yields the matched input prefix exactly as it appears in the
input — its original casing, the pattern's canonical mixed case only when the
input happens to be canonically cased. -/
theorem claim_C2 : ∀ (t b : String) (m r : List Char),
    b ∈ brand_patterns → ' ' ∈ b.data → ciTakeLit b.data t.data = some (m, r) →
    extract_main_brand_name t = String.mk m ∧ m = t.data.take b.data.length := by
  intro t b m r hb hsp hm
  have hothers : ∀ p, p ∈ brand_patterns → p ≠ b → ciTakeLit p.data t.data = none := by
    intro p hp hne
    cases hq : ciTakeLit p.data t.data with
    | none => rfl
    | some mr =>
      obtain ⟨mp, rp⟩ := mr
      exfalso
      have hpw := brandPairwiseCheck_true
      unfold brandPairwiseCheck at hpw
      have h2 := List.all_eq_true.mp (List.all_eq_true.mp hpw p hp) b hb
      have h3 := List.all_eq_true.mp (List.all_eq_true.mp hpw b hb) p hp
      rcases le_total p.data.length b.data.length with hle | hle
      · have hbeg := ciBegins_of_two p.data b.data t.data mp rp m r hq hm hle
        rcases (Bool.or_eq_true _ _).mp h2 with he | hnb
        · exact hne (beq_iff_eq.mp he)
        · rw [hbeg] at hnb
          exact absurd hnb (by decide)
      · have hbeg := ciBegins_of_two b.data p.data t.data m r mp rp hm hq hle
        rcases (Bool.or_eq_true _ _).mp h3 with he | hnb
        · exact hne (beq_iff_eq.mp he).symm
        · rw [hbeg] at hnb
          exact absurd hnb (by decide)
  have hfb : firstBrandMatch t = some m :=
    firstBrandMatch_unique brand_patterns t b m r hb hm hothers
  obtain ⟨hs, hl⟩ := ciTakeLit_shape b.data t.data m r hm
  have hmsp : ' ' ∈ m := ciTakeLit_space b.data t.data m r hm hsp
  have htne : t ≠ "" := by
    intro hte
    subst hte
    cases hbd : b.data with
    | nil => rw [hbd] at hsp; exact absurd hsp (by simp)
    | cons x xs => rw [hbd] at hm; exact absurd hm (by simp [ciTakeLit])
  constructor
  · unfold extract_main_brand_name
    rw [if_neg htne]
    simp [hfb, hmsp]
  · rw [← hl, hs]
    exact (List.take_left m r).symm

/-- Counterexample to C2 as stated: the input "AUDEMARS PIGUET ROYAL OAK"
begins case-insensitively with the multi-word brand "Audemars Piguet", yet
the normalizer returns "AUDEMARS PIGUET" — the input's casing — and not the
canonical mixed case. -/
theorem claim_C2_counterexample :
    (ciTakeLit ("Audemars Piguet" : String).data
        ("AUDEMARS PIGUET ROYAL OAK" : String).data).isSome = true
    ∧ extract_main_brand_name "AUDEMARS PIGUET ROYAL OAK" = "AUDEMARS PIGUET"
    ∧ ("AUDEMARS PIGUET" : String) ≠ "Audemars Piguet" := by
  refine ⟨by decide, by decide, by decide⟩

/-- Witness for C2 on a canonically cased input: "Audemars Piguet Royal Oak"
yields "Audemars Piguet" (the matched input prefix). -/
theorem claim_C2_witness :
    extract_main_brand_name "Audemars Piguet Royal Oak" = "Audemars Piguet" := by
  have h := claim_C2 "Audemars Piguet Royal Oak" "Audemars Piguet"
    ("Audemars Piguet" : String).data (" Royal Oak" : String).data
    (by decide) (by decide) (by decide)
  exact h.1.trans (by decide)
